import Mathlib

/-!
Shallow embedding of the `iso8601duration` Go package (duration.go).

The package has one data record, `Duration`, with seven `int` fields, and
three operations:
  * `FromString` — a regex-driven parser (pattern `full`, which is not
    anchored: the leftmost match is used and it begins at the first 'P'),
  * the formatter (a text template held in `tmpl`, executed by `String`),
  * two resolvers, `ToEstimatedDuration` and `ToDuration`.

Machine integers: Go `int` is 64-bit here; `strconv.Atoi` fails with a
range error when a digit run exceeds the maximum value, which we model
explicitly with `maxInt`.  Values are otherwise modelled as unbounded
`Int`/`Nat` since no arithmetic in the parser or formatter overflows.
-/

/-- The `Duration` struct of duration.go: seven Go `int` fields. -/
structure Duration where
  Years : Int
  Months : Int
  Weeks : Int
  Days : Int
  Hours : Int
  Minutes : Int
  Seconds : Int
deriving DecidableEq, Repr

/-- Errors `FromString` can return: `ErrBadFormat` when the regex does not
match, or the `strconv.Atoi` range error when a digit run overflows. -/
inductive ParseError where
  | badFormat
  | rangeError
deriving DecidableEq, Repr

/-- Largest Go `int` value (64-bit): `strconv.Atoi` errors above this. -/
def maxInt : Nat := 9223372036854775807

/-- Numeric value of a run of decimal digit characters (as `strconv.Atoi`
computes it for an all-digit string, before the range check). -/
def digitsToNat (ds : List Char) : Nat :=
  List.foldl (fun a c => 10 * a + (c.toNat - 48)) 0 ds

/-- `strconv.Atoi` on an all-digit string: the value, or a range error. -/
def atoi (ds : List Char) : Except ParseError Int :=
  if digitsToNat ds ≤ maxInt then .ok (Int.ofNat (digitsToNat ds)) else .error .rangeError

/-- Split off the maximal leading run of decimal digits. -/
def takeDigits : List Char → List Char × List Char
  | [] => ([], [])
  | c :: cs =>
    if c.isDigit then
      let p := takeDigits cs
      (c :: p.1, p.2)
    else ([], c :: cs)

/-- One optional regex group `((?P<name>\d+)u)?` of the pattern `full`,
matched greedily at the current position: if a nonempty digit run followed
by the unit letter `u` is present it is consumed and captured, otherwise
nothing is consumed and the capture is absent.  (For this pattern the
greedy leftmost-first semantics of Go's regexp needs no backtracking:
every later group is optional, so a group that can match is always taken.) -/
def matchGroup (u : Char) (s : List Char) : Option (List Char) × List Char :=
  match takeDigits s with
  | ([], _) => (none, s)
  | (_, []) => (none, s)
  | (ds, c :: r) => if c = u then (some ds, r) else (none, s)

/-- The capture groups of the pattern `full`, in the order of
`full.SubexpNames()`; each holds the captured digit run when the group
participated in the match. -/
structure RawMatch where
  year : Option (List Char)
  month : Option (List Char)
  week : Option (List Char)
  day : Option (List Char)
  hour : Option (List Char)
  minute : Option (List Char)
  second : Option (List Char)
deriving DecidableEq, Repr

/-- Matching the body of `full` right after the literal `P`:
`((?P<year>\d+)Y)?((?P<month>\d+)M)?((?P<week>\d+)W)?((?P<day>\d+)D)?`
followed by the optional time part
`(T((?P<hour>\d+)H)?((?P<minute>\d+)M)?((?P<second>\d+)S)?)?`. -/
def matchAfterP (s : List Char) : RawMatch :=
  let r1 := matchGroup 'Y' s
  let r2 := matchGroup 'M' r1.2
  let r3 := matchGroup 'W' r2.2
  let r4 := matchGroup 'D' r3.2
  match r4.2 with
  | c :: s' =>
    if c = 'T' then
      let t1 := matchGroup 'H' s'
      let t2 := matchGroup 'M' t1.2
      let t3 := matchGroup 'S' t2.2
      ⟨r1.1, r2.1, r3.1, r4.1, t1.1, t2.1, t3.1⟩
    else ⟨r1.1, r2.1, r3.1, r4.1, none, none, none⟩
  | [] => ⟨r1.1, r2.1, r3.1, r4.1, none, none, none⟩

/-- The leftmost match of the unanchored pattern `full`
(`MatchString`/`FindStringSubmatch`): the pattern starts with the literal
`P` and everything after it is optional, so it matches exactly at each
occurrence of `'P'`, and the leftmost match starts at the first one. -/
def findMatch : List Char → Option RawMatch
  | [] => none
  | c :: rest => if c = 'P' then some (matchAfterP rest) else findMatch rest

/-- Value of one capture in the `FromString` loop: absent captures are
skipped (the field keeps its zero value), present ones go through
`strconv.Atoi`. -/
def atoiOpt : Option (List Char) → Except ParseError Int
  | none => .ok 0
  | some ds => atoi ds

/-- `FromString` on the character list of the input: match the pattern
(else `ErrBadFormat`), then convert each participating capture with
`strconv.Atoi` in the `SubexpNames()` order year, month, week, day, hour,
minute, second, propagating the first conversion error. -/
def fromChars (s : List Char) : Except ParseError Duration :=
  match findMatch s with
  | none => .error .badFormat
  | some m => do
    let y ← atoiOpt m.year
    let mo ← atoiOpt m.month
    let w ← atoiOpt m.week
    let d ← atoiOpt m.day
    let h ← atoiOpt m.hour
    let mi ← atoiOpt m.minute
    let sec ← atoiOpt m.second
    return ⟨y, mo, w, d, h, mi, sec⟩

/-- `FromString` of duration.go. -/
def FromString (s : String) : Except ParseError Duration := fromChars s.data

/-! ## Formatter: the text template `tmpl` and the `String` method -/

/-- Decimal digit character, as Go's integer formatting emits it. -/
def digitChar (d : Nat) : Char :=
  match d with
  | 0 => '0' | 1 => '1' | 2 => '2' | 3 => '3' | 4 => '4'
  | 5 => '5' | 6 => '6' | 7 => '7' | 8 => '8' | 9 => '9'
  | _ => '*'

/-- Decimal digits of `n`, most significant first, computed with enough
fuel to terminate structurally (so that it evaluates by `decide`/`rfl`). -/
def natToDigitsAux : Nat → Nat → List Char
  | 0, _ => []
  | fuel + 1, n =>
    if n < 10 then [digitChar n]
    else natToDigitsAux fuel (n / 10) ++ [digitChar (n % 10)]

/-- Decimal representation of a natural number. -/
def natToDigits (n : Nat) : List Char := natToDigitsAux (n + 1) n

/-- Decimal representation of a Go `int`, as the template prints it. -/
def intChars (i : Int) : List Char :=
  if i < 0 then '-' :: natToDigits (-i).toNat else natToDigits i.toNat

/-- An atomic item of a template action body: literal text or a field
print action. -/
inductive TAtom where
  | lit : List Char → TAtom
  | field : String → TAtom
deriving DecidableEq, Repr

/-- A top-level template node: an atomic item, or a conditional section
guarding a body of atomic items. -/
inductive TmplNode where
  | atom : TAtom → TmplNode
  | cond : String → List TAtom → TmplNode
deriving DecidableEq, Repr

/-- Field lookup on the `Duration` struct by template name; `none` models
the template engine failing on an unknown name. -/
def lookupInt (d : Duration) (n : String) : Option Int :=
  if n = "Years" then some d.Years
  else if n = "Months" then some d.Months
  else if n = "Weeks" then some d.Weeks
  else if n = "Days" then some d.Days
  else if n = "Hours" then some d.Hours
  else if n = "Minutes" then some d.Minutes
  else if n = "Seconds" then some d.Seconds
  else none

/-- The `HasTimePart` method of duration.go. -/
def HasTimePart (d : Duration) : Bool :=
  d.Hours != 0 || d.Minutes != 0 || d.Seconds != 0

/-- Truth value of a conditional template action: the `HasTimePart`
method, or the Go-template truthiness of an `int` field (nonzero). -/
def truthy (d : Duration) (n : String) : Option Bool :=
  if n = "HasTimePart" then some (HasTimePart d)
  else (lookupInt d n).map (fun v => v != 0)

/-- Execute one atomic template item. -/
def execAtom (d : Duration) : TAtom → Except String (List Char)
  | .lit s => .ok s
  | .field n =>
    match lookupInt d n with
    | some v => .ok (intChars v)
    | none => .error "cannot evaluate field"

/-- Execute a body of atomic template items in order. -/
def execAtoms (d : Duration) : List TAtom → Except String (List Char)
  | [] => .ok []
  | a :: rest => do
    let x ← execAtom d a
    let y ← execAtoms d rest
    return x ++ y

/-- Execute one template node. -/
def execNode (d : Duration) : TmplNode → Except String (List Char)
  | .atom a => execAtom d a
  | .cond n body =>
    match truthy d n with
    | some true => execAtoms d body
    | some false => .ok []
    | none => .error "cannot evaluate condition"

/-- Execute a list of template nodes in order. -/
def execNodes (d : Duration) : List TmplNode → Except String (List Char)
  | [] => .ok []
  | n :: rest => do
    let x ← execNode d n
    let y ← execNodes d rest
    return x ++ y

/-- The parsed form of the template `tmpl` of duration.go: the literal
`P`, one conditional section per date field, the `HasTimePart` guard for
the literal `T`, and one conditional section per time field. -/
def tmpl : List TmplNode :=
  [ .atom (.lit ['P']),
    .cond "Years" [.field "Years", .lit ['Y']],
    .cond "Months" [.field "Months", .lit ['M']],
    .cond "Weeks" [.field "Weeks", .lit ['W']],
    .cond "Days" [.field "Days", .lit ['D']],
    .cond "HasTimePart" [.lit ['T']],
    .cond "Hours" [.field "Hours", .lit ['H']],
    .cond "Minutes" [.field "Minutes", .lit ['M']],
    .cond "Seconds" [.field "Seconds", .lit ['S']] ]

/-- `tmpl.Execute` on a `Duration`: the template output, or the error the
`String` method would turn into a panic. -/
def durStringE (d : Duration) : Except String (List Char) := execNodes d tmpl

/-- The `String` method of duration.go; the second branch is the panic
branch, modelled as returning an empty string (shown unreachable). -/
def durationString (d : Duration) : List Char :=
  match durStringE d with
  | .ok s => s
  | .error _ => []

/-! ## Resolver, estimated mode -/

/-- `time.Second` in nanoseconds. -/
def nsSecond : Int := 1000000000

/-- `time.Minute` in nanoseconds. -/
def nsMinute : Int := 60000000000

/-- `time.Hour` in nanoseconds. -/
def nsHour : Int := 3600000000000

/-- Reduction of an integer into the signed 64-bit range: Go's `int64`
(and hence `time.Duration` and `int`) arithmetic is two's-complement and
wraps on overflow; every `+` and `*` below is followed by this
reduction. -/
def wrap64 (x : Int) : Int :=
  (x + 9223372036854775808) % 18446744073709551616 - 9223372036854775808

/-- `ToEstimatedDuration` of duration.go: fixed unit spans (1 day = 24 h,
1 month = 30 days, 1 year = 365 days, 1 week = 7 days), result in
nanoseconds like Go's `time.Duration`, computed in wrapping `int64`
arithmetic exactly as the source does (`day`, `month`, `year` constants,
then seven `tot +=` statements; `time.Duration(d.X)` conversions are
identity on `int64` and modelled by `wrap64`). -/
def ToEstimatedDuration (d : Duration) : Int :=
  let day := wrap64 (nsHour * 24)
  let month := wrap64 (day * 30)
  let year := wrap64 (day * 365)
  let t1 := wrap64 (0 + wrap64 (year * wrap64 d.Years))
  let t2 := wrap64 (t1 + wrap64 (month * wrap64 d.Months))
  let t3 := wrap64 (t2 + wrap64 (wrap64 (day * 7) * wrap64 d.Weeks))
  let t4 := wrap64 (t3 + wrap64 (day * wrap64 d.Days))
  let t5 := wrap64 (t4 + wrap64 (nsHour * wrap64 d.Hours))
  let t6 := wrap64 (t5 + wrap64 (nsMinute * wrap64 d.Minutes))
  wrap64 (t6 + wrap64 (nsSecond * wrap64 d.Seconds))

/-! ## Resolver, calendar-accurate mode

The host calendar arithmetic of Go's `time` package.  An instant
(`time.Time`) is modelled as the count of nanoseconds since Go's
absolute zero time, January 1 of year `absoluteZeroYear`, 00:00:00 UTC.
All Go-representable instants are nonnegative values of this count;
`Int` division below is Euclidean, which agrees with Go's `uint64`
arithmetic there.

A `time.Location` is modelled by `Location`: an initial UTC offset and a
list of zone transitions (each an instant, on the same nanosecond scale
as the model's instants, with the offset in force from it on), which is
the shape of Go's zoneinfo data; `lookupZone` is `Location.lookup`
(offset plus the enclosing zone's start and end).  `DateL` is
`time.Date` for such a location — including the two-pass offset lookup
Go performs, which is what normalizes wall-clock readings that fall in a
DST gap — built on the location-independent wall-clock computation
`Date`.  `AddDateL` is `Time.AddDate` for a zoned time: it reads the
civil date from the instant shifted by the zone offset at that instant
(`Time.Date`/`Time.Clock`) and rebuilds with `DateL`. -/

/-- `absoluteZeroYear` of the Go `time` package (≡ 1 mod 400). -/
def absoluteZeroYear : Int := -292277022399

/-- One day in nanoseconds. -/
def nsPerDay : Int := 86400000000000

/-- The `daysBefore` table of the Go `time` package: days in a non-leap
year before the start of month `i+1` (index 0..12). -/
def daysBefore (i : Int) : Int :=
  if i ≤ 0 then 0
  else if i = 1 then 31
  else if i = 2 then 59
  else if i = 3 then 90
  else if i = 4 then 120
  else if i = 5 then 151
  else if i = 6 then 181
  else if i = 7 then 212
  else if i = 8 then 243
  else if i = 9 then 273
  else if i = 10 then 304
  else if i = 11 then 334
  else 365

/-- `isLeap` of the Go `time` package. -/
def isLeap (year : Int) : Bool :=
  year % 4 == 0 && (year % 100 != 0 || year % 400 == 0)

/-- The inner cycles of the `absDate` computation of the Go `time`
package: strip 100-, 4- and 1-year cycles off a count `r` of days inside
a 400-year cycle.  Returns the year offset within the cycle (0..399) and
the zero-based day of that year. -/
def cycleYDay (r : Int) : Int × Int :=
  let n100 := r / 36524
  let n100adj := n100 - n100 / 4
  let r2 := r - 36524 * n100adj
  let n4 := r2 / 1461
  let r3 := r2 - 1461 * n4
  let n1 := r3 / 365
  let n1adj := n1 - n1 / 4
  (100 * n100adj + 4 * n4 + n1adj, r3 - 365 * n1adj)

/-- The year/day-of-year part of the `absDate` computation of the Go
`time` package: strip 400-year cycles, then the inner cycles, off a count
of days since the absolute zero time.  Returns the year and the
zero-based day of that year. -/
def absDateYDay (N : Int) : Int × Int :=
  let n400 := N / 146097
  let p := cycleYDay (N - 146097 * n400)
  (400 * n400 + p.1 + absoluteZeroYear, p.2)

/-- The month/day part of `absDate`: month (1..12) and day (1-based)
from the zero-based day of year, with February 29 handling. -/
def monthDay (leap : Bool) (yday : Int) : Int × Int :=
  if leap ∧ yday = 59 then (2, 29)
  else
    let day := if leap ∧ 59 < yday then yday - 1 else yday
    let m0 := day / 31
    let endB := daysBefore (m0 + 1)
    if endB ≤ day then (m0 + 2, day - endB + 1)
    else (m0 + 1, day - daysBefore m0 + 1)

/-- `absDate` of the Go `time` package: civil year, month, day of a count
of days since the absolute zero time. -/
def absDate (N : Int) : Int × Int × Int :=
  let p := absDateYDay N
  let md := monthDay (isLeap p.1) p.2
  (p.1, md.1, md.2)

/-- `daysSinceEpoch` of the Go `time` package: days from the absolute
zero time to the start of `year`. -/
def daysSinceEpoch (year : Int) : Int :=
  let y := year - absoluteZeroYear
  let n400 := y / 400
  let y1 := y - 400 * n400
  let n100 := y1 / 100
  let y2 := y1 - 100 * n100
  let n4 := y2 / 4
  let y3 := y2 - 4 * n4
  146097 * n400 + 36524 * n100 + 1461 * n4 + 365 * y3

/-- The wall-clock part of `time.Date` at nanosecond-of-day `tod`:
normalize the month into the year, then count days since the absolute
zero time; the day may lie outside its month and simply shifts the
count.  This is the computation `time.Date` performs before the zone
offset adjustment (so it is all of `time.Date` for UTC); `DateL` adds
that adjustment for an arbitrary `Location`. -/
def Date (year month day tod : Int) : Int :=
  let m0 := month - 1
  let yearN := year + m0 / 12
  let m0N := m0 % 12
  let days := daysSinceEpoch yearN + daysBefore m0N
    + (if isLeap yearN = true ∧ 2 ≤ m0N then 1 else 0) + (day - 1)
  days * nsPerDay + tod

/-- `Time.AddDate` for a UTC time: read the civil date, add the deltas,
and rebuild with `Date`, keeping the clock reading.  `AddDateL` is the
location-aware version. -/
def AddDate (t years months days : Int) : Int :=
  let p := absDate (t / nsPerDay)
  Date (p.1 + years) (p.2.1 + months) (p.2.2 + days) (t % nsPerDay)

/-- A `time.Location`: the UTC offset in force before the first
transition, and the transitions (instant from which an offset is in
force, offset), in order.  Offsets and transition instants are in the
model's nanosecond scale. -/
structure Location where
  base : Int
  trans : List (Int × Int)

/-- Start-of-time sentinel of zone lookup (Go's `alpha`). -/
def zoneAlpha : Int := -9223372036854775808000000000

/-- End-of-time sentinel of zone lookup (Go's `omega`). -/
def zoneOmega : Int := 9223372036854775807000000000

/-- Walk the transition list: the zone in force at `sec`, as its offset
and its start and end instants (`Location.lookup` of the Go `time`
package). -/
def zoneSeek : Int → Int → List (Int × Int) → Int → Int × Int × Int
  | off, start, [], _ => (off, start, zoneOmega)
  | off, start, (t1, o1) :: rest, sec =>
    if sec < t1 then (off, start, t1) else zoneSeek o1 t1 rest sec

/-- `Location.lookup`: offset, zone start, zone end at an instant. -/
def lookupZone (loc : Location) (sec : Int) : Int × Int × Int :=
  zoneSeek loc.base zoneAlpha loc.trans sec

/-- `time.Date` with a `Location`: compute the wall-clock value, look up
the zone offset for it, and if subtracting that offset leaves the zone
that was found (a reading near a transition, e.g. inside a DST
spring-forward gap), look up again at the adjusted instant — exactly the
two-pass adjustment in the Go source. -/
def DateL (loc : Location) (year month day tod : Int) : Int :=
  let wall := Date year month day tod
  let z := lookupZone loc wall
  if z.1 = 0 then wall
  else
    let utc := wall - z.1
    if utc < z.2.1 ∨ z.2.2 ≤ utc then wall - (lookupZone loc utc).1
    else wall - z.1

/-- `Time.AddDate` of the Go `time` package for a time in `loc`: read
the civil date and clock of the instant in that location (instant plus
the offset in force at it), add the deltas, and rebuild with `DateL`. -/
def AddDateL (loc : Location) (t years months days : Int) : Int :=
  let wall := t + (lookupZone loc t).1
  let p := absDate (wall / nsPerDay)
  DateL loc (p.1 + years) (p.2.1 + months) (p.2.2 + days) (wall % nsPerDay)

/-- `ToDuration` of duration.go, for an anchor in location `loc`: three
`AddDate` steps (years+months combined, then weeks as days, then days),
three fixed-length `Add` steps, and a final `Sub` from the anchor;
result in nanoseconds. -/
def ToDuration (loc : Location) (d : Duration) (t : Int) : Int :=
  (AddDateL loc (AddDateL loc (AddDateL loc t d.Years d.Months 0) 0 0 (7 * d.Weeks)) 0 0 d.Days
    + d.Hours * nsHour + d.Minutes * nsMinute + d.Seconds * nsSecond) - t

/-- The America/New_York fragment around 2026 (tzdata): EST (UTC−5)
until the second Sunday in March, 2026-03-08 07:00 UTC, then EDT
(UTC−4) until the first Sunday in November, 2026-11-01 06:00 UTC, then
EST again. -/
def newYork2026 : Location :=
  ⟨-18000000000000,
    [(Date 2026 3 8 25200000000000, -14400000000000),
     (Date 2026 11 1 21600000000000, -18000000000000)]⟩

/-! ## Definitions used only by the verification statements -/

/-- The calendar-accurate resolution as the spec describes it: starting
from the anchor (a time in location `loc`), one combined calendar-aware
addition of years and months together, then one calendar-day addition of
`7*weeks + days`, then hours, minutes and seconds as exact fixed-length
increments; the result is the difference between the obtained instant
and the anchor. -/
def specExactSpan (loc : Location) (d : Duration) (t : Int) : Int :=
  (AddDateL loc (AddDateL loc t d.Years d.Months 0) 0 0 (7 * d.Weeks + d.Days)
    + (d.Hours * nsHour + d.Minutes * nsMinute + d.Seconds * nsSecond)) - t

/-- The formatter output as the spec describes it: emit `P`; for each of
Years/Months/Weeks/Days, if nonzero emit the value and unit letter in
that fixed order; if any of Hours/Minutes/Seconds is nonzero emit `T`;
then each nonzero time field with its unit letter in order. -/
def specFormatChars (d : Duration) : List Char :=
  'P' :: ((if d.Years ≠ 0 then intChars d.Years ++ ['Y'] else [])
    ++ ((if d.Months ≠ 0 then intChars d.Months ++ ['M'] else [])
    ++ ((if d.Weeks ≠ 0 then intChars d.Weeks ++ ['W'] else [])
    ++ ((if d.Days ≠ 0 then intChars d.Days ++ ['D'] else [])
    ++ ((if d.Hours ≠ 0 ∨ d.Minutes ≠ 0 ∨ d.Seconds ≠ 0 then ['T'] else [])
    ++ ((if d.Hours ≠ 0 then intChars d.Hours ++ ['H'] else [])
    ++ ((if d.Minutes ≠ 0 then intChars d.Minutes ++ ['M'] else [])
    ++ (if d.Seconds ≠ 0 then intChars d.Seconds ++ ['S'] else []))))))))

/-- One optional component of the duration grammar: a digit run followed
by its unit letter, or nothing. -/
def optR (o : Option (List Char)) (u : Char) : List Char :=
  match o with
  | none => []
  | some ds => ds ++ [u]

/-- The components of a word of the duration grammar
`P [nY] [nM] [nW] [nD] [ T [nH] [nM] [nS] ]`: the optional digit run of
each unit, and whether the time separator `T` is present. -/
structure GrammarParts where
  year : Option (List Char)
  month : Option (List Char)
  week : Option (List Char)
  day : Option (List Char)
  hasT : Bool
  hour : Option (List Char)
  minute : Option (List Char)
  second : Option (List Char)

/-- The word of the duration grammar with the given components. -/
def render (g : GrammarParts) : List Char :=
  'P' :: (optR g.year 'Y' ++ (optR g.month 'M' ++ (optR g.week 'W' ++ (optR g.day 'D' ++
    (if g.hasT then
      'T' :: (optR g.hour 'H' ++ (optR g.minute 'M' ++ optR g.second 'S'))
    else [])))))

/-- A well-formed grammar component: absent, or a nonempty run of
decimal digits. -/
def goodRun (o : Option (List Char)) : Bool :=
  match o with
  | none => true
  | some ds => !ds.isEmpty && ds.all (fun c => c.isDigit)

/-- A component whose numeric value fits in a Go `int`. -/
def okVal (o : Option (List Char)) : Bool :=
  match o with
  | none => true
  | some ds => decide (digitsToNat ds ≤ maxInt)

/-- The field value a grammar component denotes: 0 when absent. -/
def valOf (o : Option (List Char)) : Int :=
  match o with
  | none => 0
  | some ds => Int.ofNat (digitsToNat ds)

/-- A word may carry a time unit only inside a time part. -/
def timeGuard (g : GrammarParts) : Prop :=
  g.hasT = false → g.hour = none ∧ g.minute = none ∧ g.second = none

/-- The grammar components of the canonical rendering of a `Duration`
with nonnegative fields. -/
def partsOf (d : Duration) : GrammarParts where
  year := if d.Years = 0 then none else some (natToDigits d.Years.toNat)
  month := if d.Months = 0 then none else some (natToDigits d.Months.toNat)
  week := if d.Weeks = 0 then none else some (natToDigits d.Weeks.toNat)
  day := if d.Days = 0 then none else some (natToDigits d.Days.toNat)
  hasT := HasTimePart d
  hour := if d.Hours = 0 then none else some (natToDigits d.Hours.toNat)
  minute := if d.Minutes = 0 then none else some (natToDigits d.Minutes.toNat)
  second := if d.Seconds = 0 then none else some (natToDigits d.Seconds.toNat)

/-- Shapes of character lists on which an optional unit group of the
pattern cannot match: empty, or a (possibly empty) digit run followed by
a non-digit character other than the group's unit letter. -/
def MissShape (u : Char) (s : List Char) : Prop :=
  s = [] ∨ ∃ ds c r, s = ds ++ c :: r ∧ (∀ x ∈ ds, x.isDigit = true)
    ∧ c.isDigit = false ∧ c ≠ u

/-- Finite check for `monthDay`: sane month and day, and recombination
through `daysBefore` and the leap adjustment gives back the day of year. -/
def mdOK (leap : Bool) (n : Nat) : Bool :=
  decide (1 ≤ (monthDay leap ((n : Nat) : Int)).1) &&
  decide ((monthDay leap ((n : Nat) : Int)).1 ≤ 12) &&
  decide (1 ≤ (monthDay leap ((n : Nat) : Int)).2) &&
  decide (daysBefore ((monthDay leap ((n : Nat) : Int)).1 - 1)
    + (if leap = true ∧ 2 ≤ (monthDay leap ((n : Nat) : Int)).1 - 1 then 1 else 0)
    + ((monthDay leap ((n : Nat) : Int)).2 - 1) = ((n : Nat) : Int))

/-! ## Theorems: calendar arithmetic -/

theorem cycleYDay_spec (r : Int) (h0 : 0 ≤ r) (h1 : r < 146097) :
    0 ≤ (cycleYDay r).1 ∧ (cycleYDay r).1 ≤ 399 ∧
    36524 * ((cycleYDay r).1 / 100) + 1461 * ((cycleYDay r).1 % 100 / 4)
      + 365 * ((cycleYDay r).1 % 100 % 4) + (cycleYDay r).2 = r ∧
    0 ≤ (cycleYDay r).2 ∧ (cycleYDay r).2 ≤ 365 ∧
    ((cycleYDay r).2 = 365 →
      ((cycleYDay r).1 % 4 = 3 ∧ ((cycleYDay r).1 % 100 ≠ 99 ∨ (cycleYDay r).1 % 400 = 399))) := by
  simp only [cycleYDay]
  set a1 := r / 36524 with ha1
  set a2 := a1 / 4 with ha2
  set r2 := r - 36524 * (a1 - a2) with hr2
  set a3 := r2 / 1461 with ha3
  set r3 := r2 - 1461 * a3 with hr3
  set a4 := r3 / 365 with ha4
  set a5 := a4 / 4 with ha5
  set w := 100 * (a1 - a2) + 4 * a3 + (a4 - a5) with hw
  set yd := r3 - 365 * (a4 - a5) with hyd
  set b1 := w / 100 with hb1
  set b2 := w % 100 with hb2
  set b3 := b2 / 4 with hb3
  have k1 : 0 ≤ a1 ∧ a1 ≤ 4 ∧ 0 ≤ a1 - a2 ∧ a1 - a2 ≤ 3 := by omega
  have k2 : 0 ≤ r2 ∧ r2 ≤ 36524 ∧ (r2 = 36524 → a1 - a2 = 3) := by omega
  have k3 : 0 ≤ a3 ∧ a3 ≤ 24 ∧ (a3 = 24 → r3 ≤ 1460) := by omega
  have k4 : 0 ≤ r3 ∧ r3 ≤ 1460 := by omega
  have k5 : 0 ≤ a4 ∧ a4 ≤ 4 ∧ 0 ≤ a4 - a5 ∧ a4 - a5 ≤ 3 := by omega
  have k6 : 0 ≤ yd ∧ yd ≤ 365 := by omega
  have k7 : 0 ≤ w ∧ w ≤ 399 := by omega
  have k8 : b1 = a1 - a2 := by omega
  have k9 : b2 = 4 * a3 + (a4 - a5) := by omega
  have k10 : b3 = a3 := by omega
  have k11 : b2 % 4 = a4 - a5 := by omega
  have k12 : yd = 365 → (a4 - a5 = 3 ∧ r3 = 1460) := by omega
  have k13 : yd = 365 → (a3 = 24 → (r2 = 36524 ∧ a1 - a2 = 3)) := by omega
  refine ⟨by omega, by omega, by omega, by omega, by omega, ?_⟩
  intro hyd365
  exact ⟨by omega, by omega⟩

theorem dse_eq (q w : Int) (h0 : 0 ≤ w) (h1 : w ≤ 399) :
    daysSinceEpoch (400 * q + w + absoluteZeroYear)
      = 146097 * q + 36524 * (w / 100) + 1461 * (w % 100 / 4) + 365 * (w % 100 % 4) := by
  simp only [daysSinceEpoch, absoluteZeroYear]
  omega

theorem isLeap_iff (q w : Int) :
    isLeap (400 * q + w + absoluteZeroYear) = true
      ↔ (w % 4 = 3 ∧ (w % 100 ≠ 99 ∨ w % 400 = 399)) := by
  simp only [isLeap, absoluteZeroYear, Bool.and_eq_true, Bool.or_eq_true, beq_iff_eq,
    bne_iff_ne, ne_eq]
  omega

theorem absDateYDay_spec (N : Int) :
    daysSinceEpoch (absDateYDay N).1 + (absDateYDay N).2 = N ∧
    0 ≤ (absDateYDay N).2 ∧ (absDateYDay N).2 ≤ 365 ∧
    ((absDateYDay N).2 = 365 → isLeap (absDateYDay N).1 = true) := by
  have h0 : 0 ≤ N - 146097 * (N / 146097) := by omega
  have h1 : N - 146097 * (N / 146097) < 146097 := by omega
  obtain ⟨c1, c2, c3, c4, c5, c6⟩ := cycleYDay_spec (N - 146097 * (N / 146097)) h0 h1
  simp only [absDateYDay]
  refine ⟨?_, c4, c5, ?_⟩
  · rw [dse_eq _ _ c1 c2]
    omega
  · intro h
    rw [isLeap_iff]
    exact c6 h

set_option maxRecDepth 4000 in
theorem monthDay_ok :
    ∀ (leap : Bool) (n : Nat), n < 366 → (leap = false → n ≠ 365) → mdOK leap n = true := by
  decide

theorem monthDay_spec (leap : Bool) (yday : Int) (h0 : 0 ≤ yday) (h1 : yday ≤ 365)
    (h2 : yday = 365 → leap = true) :
    1 ≤ (monthDay leap yday).1 ∧ (monthDay leap yday).1 ≤ 12 ∧ 1 ≤ (monthDay leap yday).2 ∧
    daysBefore ((monthDay leap yday).1 - 1)
      + (if leap = true ∧ 2 ≤ (monthDay leap yday).1 - 1 then 1 else 0)
      + ((monthDay leap yday).2 - 1) = yday := by
  have hn : yday = ((yday.toNat : Nat) : Int) := by omega
  have hlt : yday.toNat < 366 := by omega
  have hg : leap = false → yday.toNat ≠ 365 := by
    intro hf hc
    have h365 : yday = 365 := by omega
    rw [h2 h365] at hf
    cases hf
  have h := monthDay_ok leap yday.toNat hlt hg
  simp only [mdOK, Bool.and_eq_true, decide_eq_true_eq] at h
  rw [hn]
  exact ⟨h.1.1.1, h.1.1.2, h.1.2, h.2⟩

theorem absDate_recompose (N : Int) :
    1 ≤ (absDate N).2.1 ∧ (absDate N).2.1 ≤ 12 ∧ 1 ≤ (absDate N).2.2 ∧
    daysSinceEpoch (absDate N).1 + daysBefore ((absDate N).2.1 - 1)
      + (if isLeap (absDate N).1 = true ∧ 2 ≤ (absDate N).2.1 - 1 then 1 else 0)
      + ((absDate N).2.2 - 1) = N := by
  obtain ⟨g1, g2, g3, g4⟩ := absDateYDay_spec N
  obtain ⟨m1, m2, m3, m4⟩ :=
    monthDay_spec (isLeap (absDateYDay N).1) (absDateYDay N).2 g2 g3 g4
  simp only [absDate]
  exact ⟨m1, m2, m3, by omega⟩

theorem AddDate_days (t k : Int) :
    AddDate t 0 0 k = (t / nsPerDay + k) * nsPerDay + t % nsPerDay := by
  simp only [AddDate, Date, nsPerDay, add_zero]
  obtain ⟨r1, r2, r3, r4⟩ := absDate_recompose (t / 86400000000000)
  have e1 : ((absDate (t / 86400000000000)).2.1 - 1) / 12 = 0 := by omega
  have e2 : ((absDate (t / 86400000000000)).2.1 - 1) % 12
      = (absDate (t / 86400000000000)).2.1 - 1 := by omega
  rw [e1, e2]
  simp only [add_zero]
  omega

theorem AddDate_days_merge (t a b : Int) :
    AddDate (AddDate t 0 0 a) 0 0 b = AddDate t 0 0 (a + b) := by
  rw [AddDate_days, AddDate_days, AddDate_days]
  simp only [nsPerDay]
  omega

/-! ## Theorems: the regex match on grammar words -/

theorem takeDigits_append (ds : List Char) (hds : ∀ c ∈ ds, c.isDigit = true)
    (v : Char) (hv : v.isDigit = false) (rest : List Char) :
    takeDigits (ds ++ v :: rest) = (ds, v :: rest) := by
  induction ds with
  | nil => simp [takeDigits, hv]
  | cons c cs ih =>
    have hc : c.isDigit = true := hds c (List.mem_cons_self c cs)
    have ih2 := ih (fun x hx => hds x (List.mem_cons_of_mem c hx))
    simp [takeDigits, hc, ih2]

theorem matchGroup_hit (u : Char) (hu : u.isDigit = false) (ds : List Char)
    (hne : ds ≠ []) (hds : ∀ c ∈ ds, c.isDigit = true) (rest : List Char) :
    matchGroup u (ds ++ u :: rest) = (some ds, rest) := by
  rw [matchGroup, takeDigits_append ds hds u hu rest]
  match ds, hne with
  | d :: ds2, _ => simp

theorem matchGroup_none (u : Char) (s : List Char) (h : MissShape u s) :
    matchGroup u s = (none, s) := by
  rcases h with hnil | ⟨ds, c, r, hs, hds, hc, hcu⟩
  · subst hnil
    rfl
  · subst hs
    rw [matchGroup, takeDigits_append ds hds c hc r]
    match ds with
    | [] => simp
    | d :: ds2 => simp [hcu]

theorem missShape_nil (u : Char) : MissShape u [] := Or.inl rfl

theorem missShape_cons (u c : Char) (hc : c.isDigit = false) (hcu : c ≠ u)
    (r : List Char) : MissShape u (c :: r) :=
  Or.inr ⟨[], c, r, rfl, by simp, hc, hcu⟩

theorem missShape_optR (u u2 : Char) (h2 : u2.isDigit = false) (hne : u2 ≠ u)
    (o : Option (List Char)) (ho : goodRun o = true) (tail : List Char)
    (ht : MissShape u tail) : MissShape u (optR o u2 ++ tail) := by
  match o with
  | none => simpa [optR] using ht
  | some ds =>
    simp only [goodRun, Bool.and_eq_true, List.all_eq_true] at ho
    exact Or.inr ⟨ds, u2, tail, by simp [optR], fun x hx => ho.2 x hx, h2, hne⟩

theorem matchGroup_stage (u : Char) (hu : u.isDigit = false) (o : Option (List Char))
    (ho : goodRun o = true) (tail : List Char) (ht : MissShape u tail) :
    matchGroup u (optR o u ++ tail) = (o, tail) := by
  match o with
  | none =>
    simpa [optR] using matchGroup_none u tail ht
  | some ds =>
    simp only [goodRun, Bool.and_eq_true, List.all_eq_true] at ho
    have hne : ds ≠ [] := by
      intro hnil
      rw [hnil] at ho
      simpa using ho.1
    simpa [optR] using matchGroup_hit u hu ds hne ho.2 tail

theorem matchAfterP_renderT (y mo w d h mi sec : Option (List Char))
    (hy : goodRun y = true) (hmo : goodRun mo = true) (hw : goodRun w = true)
    (hd : goodRun d = true) (hh : goodRun h = true) (hmi : goodRun mi = true)
    (hsec : goodRun sec = true) :
    matchAfterP (optR y 'Y' ++ (optR mo 'M' ++ (optR w 'W' ++ (optR d 'D' ++
      ('T' :: (optR h 'H' ++ (optR mi 'M' ++ optR sec 'S')))))))
      = ⟨y, mo, w, d, h, mi, sec⟩ := by
  have e7 : matchGroup 'S' (optR sec 'S') = (sec, []) := by
    have hx := matchGroup_stage 'S' (by decide) sec hsec [] (missShape_nil 'S')
    simpa using hx
  have msMi : MissShape 'M' (optR sec 'S') := by
    have hx := missShape_optR 'M' 'S' (by decide) (by decide) sec hsec [] (missShape_nil 'M')
    simpa using hx
  have e6 : matchGroup 'M' (optR mi 'M' ++ optR sec 'S') = (mi, optR sec 'S') :=
    matchGroup_stage 'M' (by decide) mi hmi _ msMi
  have msH : MissShape 'H' (optR mi 'M' ++ optR sec 'S') := by
    have h0 : MissShape 'H' (optR sec 'S') := by
      have hx := missShape_optR 'H' 'S' (by decide) (by decide) sec hsec [] (missShape_nil 'H')
      simpa using hx
    exact missShape_optR 'H' 'M' (by decide) (by decide) mi hmi _ h0
  have e5 : matchGroup 'H' (optR h 'H' ++ (optR mi 'M' ++ optR sec 'S'))
      = (h, optR mi 'M' ++ optR sec 'S') :=
    matchGroup_stage 'H' (by decide) h hh _ msH
  have msD : MissShape 'D' ('T' :: (optR h 'H' ++ (optR mi 'M' ++ optR sec 'S'))) :=
    missShape_cons 'D' 'T' (by decide) (by decide) _
  have e4 : matchGroup 'D' (optR d 'D' ++ ('T' :: (optR h 'H' ++ (optR mi 'M' ++ optR sec 'S'))))
      = (d, 'T' :: (optR h 'H' ++ (optR mi 'M' ++ optR sec 'S'))) :=
    matchGroup_stage 'D' (by decide) d hd _ msD
  have msW := missShape_optR 'W' 'D' (by decide) (by decide) d hd _
    (missShape_cons 'W' 'T' (by decide) (by decide)
      (optR h 'H' ++ (optR mi 'M' ++ optR sec 'S')))
  have e3 := matchGroup_stage 'W' (by decide) w hw _ msW
  have msM := missShape_optR 'M' 'W' (by decide) (by decide) w hw _
    (missShape_optR 'M' 'D' (by decide) (by decide) d hd _
      (missShape_cons 'M' 'T' (by decide) (by decide)
        (optR h 'H' ++ (optR mi 'M' ++ optR sec 'S'))))
  have e2 := matchGroup_stage 'M' (by decide) mo hmo _ msM
  have msY := missShape_optR 'Y' 'M' (by decide) (by decide) mo hmo _
    (missShape_optR 'Y' 'W' (by decide) (by decide) w hw _
      (missShape_optR 'Y' 'D' (by decide) (by decide) d hd _
        (missShape_cons 'Y' 'T' (by decide) (by decide)
          (optR h 'H' ++ (optR mi 'M' ++ optR sec 'S')))))
  have e1 := matchGroup_stage 'Y' (by decide) y hy _ msY
  simp only [matchAfterP, e1, e2, e3, e4, e5, e6, e7, if_true]

theorem matchAfterP_renderN (y mo w d : Option (List Char))
    (hy : goodRun y = true) (hmo : goodRun mo = true) (hw : goodRun w = true)
    (hd : goodRun d = true) :
    matchAfterP (optR y 'Y' ++ (optR mo 'M' ++ (optR w 'W' ++ optR d 'D')))
      = ⟨y, mo, w, d, none, none, none⟩ := by
  have e4 : matchGroup 'D' (optR d 'D') = (d, []) := by
    have hx := matchGroup_stage 'D' (by decide) d hd [] (missShape_nil 'D')
    simpa using hx
  have msW : MissShape 'W' (optR d 'D') := by
    have hx := missShape_optR 'W' 'D' (by decide) (by decide) d hd [] (missShape_nil 'W')
    simpa using hx
  have e3 : matchGroup 'W' (optR w 'W' ++ optR d 'D') = (w, optR d 'D') :=
    matchGroup_stage 'W' (by decide) w hw _ msW
  have msM : MissShape 'M' (optR w 'W' ++ optR d 'D') := by
    have h0 : MissShape 'M' (optR d 'D') := by
      have hx := missShape_optR 'M' 'D' (by decide) (by decide) d hd [] (missShape_nil 'M')
      simpa using hx
    exact missShape_optR 'M' 'W' (by decide) (by decide) w hw _ h0
  have e2 : matchGroup 'M' (optR mo 'M' ++ (optR w 'W' ++ optR d 'D'))
      = (mo, optR w 'W' ++ optR d 'D') :=
    matchGroup_stage 'M' (by decide) mo hmo _ msM
  have msY : MissShape 'Y' (optR mo 'M' ++ (optR w 'W' ++ optR d 'D')) := by
    have h0 : MissShape 'Y' (optR d 'D') := by
      have hx := missShape_optR 'Y' 'D' (by decide) (by decide) d hd [] (missShape_nil 'Y')
      simpa using hx
    exact missShape_optR 'Y' 'M' (by decide) (by decide) mo hmo _
      (missShape_optR 'Y' 'W' (by decide) (by decide) w hw _ h0)
  have e1 := matchGroup_stage 'Y' (by decide) y hy _ msY
  simp only [matchAfterP, e1, e2, e3, e4]

theorem findMatch_cons_P (rest : List Char) :
    findMatch ('P' :: rest) = some (matchAfterP rest) := by
  simp [findMatch]

theorem atoiOpt_ok (o : Option (List Char)) (hv : okVal o = true) :
    atoiOpt o = .ok (valOf o) := by
  match o with
  | none => rfl
  | some ds =>
    simp only [okVal, decide_eq_true_eq] at hv
    simp [atoiOpt, atoi, valOf, hv]

theorem exceptBind_ok {ε α β : Type} (v : α) (f : α → Except ε β) :
    (Except.ok v >>= f) = f v := rfl

theorem exceptPure_eq {ε α : Type} (v : α) :
    (pure v : Except ε α) = Except.ok v := rfl

theorem fromChars_render (g : GrammarParts)
    (hy : goodRun g.year = true) (hmo : goodRun g.month = true)
    (hw : goodRun g.week = true) (hd : goodRun g.day = true)
    (hh : goodRun g.hour = true) (hmi : goodRun g.minute = true)
    (hsec : goodRun g.second = true) (htg : timeGuard g)
    (vy : okVal g.year = true) (vmo : okVal g.month = true)
    (vw : okVal g.week = true) (vd : okVal g.day = true)
    (vh : okVal g.hour = true) (vmi : okVal g.minute = true)
    (vsec : okVal g.second = true) :
    fromChars (render g) = .ok ⟨valOf g.year, valOf g.month, valOf g.week, valOf g.day,
      valOf g.hour, valOf g.minute, valOf g.second⟩ := by
  have hfm : findMatch (render g)
      = some ⟨g.year, g.month, g.week, g.day, g.hour, g.minute, g.second⟩ := by
    cases hB : g.hasT with
    | true =>
      have hbody := matchAfterP_renderT g.year g.month g.week g.day g.hour g.minute g.second
        hy hmo hw hd hh hmi hsec
      simp only [render, hB, eq_self_iff_true, if_true]
      rw [findMatch_cons_P, hbody]
    | false =>
      obtain ⟨eh, em, es⟩ := htg hB
      have hbody := matchAfterP_renderN g.year g.month g.week g.day hy hmo hw hd
      simp only [render, hB, Bool.false_eq_true, if_false, List.append_nil]
      rw [findMatch_cons_P, hbody, eh, em, es]
  simp only [fromChars, hfm, exceptBind_ok, exceptPure_eq,
    atoiOpt_ok g.year vy, atoiOpt_ok g.month vmo, atoiOpt_ok g.week vw, atoiOpt_ok g.day vd,
    atoiOpt_ok g.hour vh, atoiOpt_ok g.minute vmi, atoiOpt_ok g.second vsec]

/-! ## Theorems: digits, formatter, and parser error behavior -/

theorem digitChar_val : ∀ n : Nat, n < 10 → ((digitChar n).toNat = 48 + n ∧ (digitChar n).isDigit = true) := by
  decide

theorem digitsToNat_snoc (xs : List Char) (c : Char) :
    digitsToNat (xs ++ [c]) = 10 * digitsToNat xs + (c.toNat - 48) := by
  simp [digitsToNat, List.foldl_append]

theorem natToDigitsAux_spec :
    ∀ fuel n : Nat, n < fuel →
      (natToDigitsAux fuel n ≠ [] ∧ (∀ c ∈ natToDigitsAux fuel n, c.isDigit = true)
        ∧ digitsToNat (natToDigitsAux fuel n) = n) := by
  intro fuel
  induction fuel with
  | zero => intro n hn; omega
  | succ fuel ih =>
    intro n hn
    by_cases h10 : n < 10
    · obtain ⟨hv, hdig⟩ := digitChar_val n h10
      refine ⟨by simp [natToDigitsAux, h10], ?_, ?_⟩
      · intro c hc
        simp only [natToDigitsAux, if_pos h10, List.mem_singleton] at hc
        subst hc
        exact hdig
      · simp [natToDigitsAux, h10, digitsToNat, hv]
    · have hdiv : n / 10 < fuel := by omega
      obtain ⟨ihne, ihdig, ihval⟩ := ih (n / 10) hdiv
      have hm : n % 10 < 10 := by omega
      obtain ⟨hv, hdig⟩ := digitChar_val (n % 10) hm
      refine ⟨by simp [natToDigitsAux, h10], ?_, ?_⟩
      · intro c hc
        simp only [natToDigitsAux, if_neg h10, List.mem_append, List.mem_singleton] at hc
        rcases hc with hc | hc
        · exact ihdig c hc
        · subst hc; exact hdig
      · rw [natToDigitsAux, if_neg h10, digitsToNat_snoc, ihval, hv]
        omega

theorem natToDigits_spec (n : Nat) :
    natToDigits n ≠ [] ∧ (∀ c ∈ natToDigits n, c.isDigit = true)
      ∧ digitsToNat (natToDigits n) = n :=
  natToDigitsAux_spec (n + 1) n (by omega)

theorem exec_cond_field (d : Duration) (v : Int) (nm : String) (u : Char)
    (hnm : nm ≠ "HasTimePart") (hl : lookupInt d nm = some v) :
    execNode d (.cond nm [.field nm, .lit [u]])
      = .ok (if v ≠ 0 then intChars v ++ [u] else []) := by
  simp only [execNode, truthy, if_neg hnm, hl, Option.map_some']
  by_cases hv : v = 0
  · subst hv
    simp [execAtoms]
  · have hb : (v != 0) = true := by simpa using hv
    rw [hb]
    simp [execAtoms, execAtom, hl, hv, exceptBind_ok, exceptPure_eq]

theorem exec_cond_T (d : Duration) :
    execNode d (.cond "HasTimePart" [.lit ['T']])
      = .ok (if HasTimePart d = true then ['T'] else []) := by
  simp only [execNode, truthy, if_pos rfl]
  cases h : HasTimePart d <;> simp [execAtoms, execAtom, exceptBind_ok, exceptPure_eq]

theorem durStringE_spec (d : Duration) : durStringE d = .ok (specFormatChars d) := by
  have hY := exec_cond_field d d.Years "Years" 'Y' (by decide) (by simp [lookupInt])
  have hMo := exec_cond_field d d.Months "Months" 'M' (by decide) (by simp [lookupInt])
  have hW := exec_cond_field d d.Weeks "Weeks" 'W' (by decide) (by simp [lookupInt])
  have hD := exec_cond_field d d.Days "Days" 'D' (by decide) (by simp [lookupInt])
  have hH := exec_cond_field d d.Hours "Hours" 'H' (by decide) (by simp [lookupInt])
  have hMi := exec_cond_field d d.Minutes "Minutes" 'M' (by decide) (by simp [lookupInt])
  have hS := exec_cond_field d d.Seconds "Seconds" 'S' (by decide) (by simp [lookupInt])
  have hT := exec_cond_T d
  have hTP : (HasTimePart d = true) = (d.Hours ≠ 0 ∨ d.Minutes ≠ 0 ∨ d.Seconds ≠ 0) := by
    apply propext
    simp [HasTimePart, or_assoc]
  have hP : execNode d (.atom (.lit ['P'])) = .ok ['P'] := rfl
  simp only [durStringE, tmpl, execNodes, hP, hY, hMo, hW, hD, hT, hH, hMi, hS,
    exceptBind_ok, exceptPure_eq, specFormatChars, hTP, List.append_nil, List.singleton_append]

theorem durationString_eq (d : Duration) : durationString d = specFormatChars d := by
  simp [durationString, durStringE_spec d]

theorem optR_partsOf (v : Int) (hv : 0 ≤ v) (u : Char) :
    optR (if v = 0 then none else some (natToDigits v.toNat)) u
      = if v ≠ 0 then intChars v ++ [u] else [] := by
  by_cases h : v = 0
  · simp [h, optR]
  · simp [h, optR, intChars, not_lt.mpr hv]

theorem goodRun_partsOf (v : Int) :
    goodRun (if v = 0 then none else some (natToDigits v.toNat)) = true := by
  by_cases h : v = 0
  · simp [h, goodRun]
  · obtain ⟨hne, hdig, _⟩ := natToDigits_spec v.toNat
    rw [if_neg h]
    have hemp : (natToDigits v.toNat).isEmpty = false := by
      cases hlist : natToDigits v.toNat with
      | nil => exact absurd hlist hne
      | cons c cs => rfl
    simp only [goodRun, hemp, Bool.and_eq_true, List.all_eq_true, Bool.not_false]
    exact ⟨trivial, hdig⟩

theorem okVal_partsOf (v : Int) (hv : v ≤ (maxInt : Int)) :
    okVal (if v = 0 then none else some (natToDigits v.toNat)) = true := by
  by_cases h : v = 0
  · simp [h, okVal]
  · obtain ⟨_, _, hval⟩ := natToDigits_spec v.toNat
    rw [if_neg h]
    simp only [okVal, decide_eq_true_eq, hval]
    simp only [maxInt] at hv ⊢
    omega

theorem valOf_partsOf (v : Int) (hv : 0 ≤ v) :
    valOf (if v = 0 then none else some (natToDigits v.toNat)) = v := by
  by_cases h : v = 0
  · simp [h, valOf]
  · obtain ⟨_, _, hval⟩ := natToDigits_spec v.toNat
    rw [if_neg h]
    simp only [valOf, hval]
    simpa using Int.toNat_of_nonneg hv

theorem hasTimePart_false_iff (d : Duration) :
    HasTimePart d = false ↔ (d.Hours = 0 ∧ d.Minutes = 0 ∧ d.Seconds = 0) := by
  simp [HasTimePart, and_assoc]

theorem specFormatChars_eq_render (d : Duration)
    (h1 : 0 ≤ d.Years) (h2 : 0 ≤ d.Months) (h3 : 0 ≤ d.Weeks) (h4 : 0 ≤ d.Days)
    (h5 : 0 ≤ d.Hours) (h6 : 0 ≤ d.Minutes) (h7 : 0 ≤ d.Seconds) :
    specFormatChars d = render (partsOf d) := by
  have eY := optR_partsOf d.Years h1 'Y'
  have eMo := optR_partsOf d.Months h2 'M'
  have eW := optR_partsOf d.Weeks h3 'W'
  have eD := optR_partsOf d.Days h4 'D'
  have eH := optR_partsOf d.Hours h5 'H'
  have eMi := optR_partsOf d.Minutes h6 'M'
  have eS := optR_partsOf d.Seconds h7 'S'
  cases hT : HasTimePart d with
  | true =>
    have hTP : (d.Hours ≠ 0 ∨ d.Minutes ≠ 0 ∨ d.Seconds ≠ 0) := by
      have := hT
      simp only [HasTimePart, Bool.or_eq_true, bne_iff_ne, ne_eq] at this
      tauto
    simp only [specFormatChars, render, partsOf, eY, eMo, eW, eD, eH, eMi, eS, hT,
      if_pos hTP, eq_self_iff_true, if_true, List.singleton_append, List.cons_append,
      List.nil_append]
  | false =>
    obtain ⟨z1, z2, z3⟩ := (hasTimePart_false_iff d).mp hT
    have hTP : ¬ (d.Hours ≠ 0 ∨ d.Minutes ≠ 0 ∨ d.Seconds ≠ 0) := by
      simp [z1, z2, z3]
    simp only [specFormatChars, render, partsOf, eY, eMo, eW, eD, hT,
      if_neg hTP, Bool.false_eq_true, if_false, z1, z2, z3, List.append_nil]
    simp [optR]

theorem exceptBind_err {ε α β : Type} (e : ε) (f : α → Except ε β) :
    ((Except.error e : Except ε α) >>= f) = .error e := rfl

theorem atoiOpt_cases (o : Option (List Char)) :
    atoiOpt o = .ok (valOf o) ∨ atoiOpt o = .error .rangeError := by
  match o with
  | none => exact Or.inl rfl
  | some ds =>
    by_cases h : digitsToNat ds ≤ maxInt
    · exact Or.inl (by simp [atoiOpt, atoi, valOf, h])
    · exact Or.inr (by simp [atoiOpt, atoi, h])

theorem atoiOpt_err (o : Option (List Char)) (h : ¬ okVal o = true) :
    atoiOpt o = .error .rangeError := by
  match o with
  | none => exact absurd rfl h
  | some ds =>
    simp only [okVal, decide_eq_true_eq] at h
    simp [atoiOpt, atoi, h]

theorem findMatch_none_iff (s : List Char) : findMatch s = none ↔ 'P' ∉ s := by
  induction s with
  | nil => simp [findMatch]
  | cons c cs ih =>
    by_cases hc : c = 'P'
    · subst hc
      simp [findMatch]
    · simp [findMatch, hc, ih, Ne.symm hc]

theorem fromChars_shape (s : List Char) (m : RawMatch) (hm : findMatch s = some m) :
    (∃ d, fromChars s = .ok d) ∨ fromChars s = .error .rangeError := by
  simp only [fromChars, hm]
  rcases atoiOpt_cases m.year with hy | hy
  · rw [hy, exceptBind_ok]
    rcases atoiOpt_cases m.month with hmo | hmo
    · rw [hmo, exceptBind_ok]
      rcases atoiOpt_cases m.week with hw | hw
      · rw [hw, exceptBind_ok]
        rcases atoiOpt_cases m.day with hd | hd
        · rw [hd, exceptBind_ok]
          rcases atoiOpt_cases m.hour with hh | hh
          · rw [hh, exceptBind_ok]
            rcases atoiOpt_cases m.minute with hmi | hmi
            · rw [hmi, exceptBind_ok]
              rcases atoiOpt_cases m.second with hsec | hsec
              · rw [hsec, exceptBind_ok]
                exact Or.inl ⟨_, rfl⟩
              · rw [hsec, exceptBind_err]
                exact Or.inr rfl
            · rw [hmi, exceptBind_err]
              exact Or.inr rfl
          · rw [hh, exceptBind_err]
            exact Or.inr rfl
        · rw [hd, exceptBind_err]
          exact Or.inr rfl
      · rw [hw, exceptBind_err]
        exact Or.inr rfl
    · rw [hmo, exceptBind_err]
      exact Or.inr rfl
  · rw [hy, exceptBind_err]
    exact Or.inr rfl

theorem fromChars_badFormat_iff (s : List Char) :
    fromChars s = .error .badFormat ↔ 'P' ∉ s := by
  constructor
  · intro h
    by_contra hmem2
    have hsome : findMatch s ≠ none := by
      intro hn
      exact ((findMatch_none_iff s).mp hn) hmem2
    match hfm : findMatch s with
    | none => exact hsome hfm
    | some m =>
      rcases fromChars_shape s m hfm with ⟨d, hd⟩ | hr
      · rw [hd] at h
        cases h
      · rw [hr] at h
        cases h
  · intro hp
    have hn : findMatch s = none := (findMatch_none_iff s).mpr hp
    simp [fromChars, hn]

theorem findMatch_append (pre s : List Char) (hp : 'P' ∉ pre) :
    findMatch (pre ++ s) = findMatch s := by
  induction pre with
  | nil => simp
  | cons c cs ih =>
    have hc : c ≠ 'P' := fun h => hp (h ▸ List.mem_cons_self c cs)
    have hrest : 'P' ∉ cs := fun h => hp (List.mem_cons_of_mem c h)
    simp only [List.cons_append, findMatch, if_neg hc]
    exact ih hrest

theorem fromChars_skip (pre s : List Char) (hp : 'P' ∉ pre) :
    fromChars (pre ++ s) = fromChars s := by
  simp only [fromChars, findMatch_append pre s hp]

theorem fromChars_overflow (s : List Char) (m : RawMatch) (hm : findMatch s = some m)
    (hover : ¬ (okVal m.year = true ∧ okVal m.month = true ∧ okVal m.week = true
      ∧ okVal m.day = true ∧ okVal m.hour = true ∧ okVal m.minute = true
      ∧ okVal m.second = true)) :
    fromChars s = .error .rangeError := by
  simp only [fromChars, hm]
  by_cases hy : okVal m.year = true
  case neg => rw [atoiOpt_err m.year hy, exceptBind_err]
  rw [atoiOpt_ok m.year hy, exceptBind_ok]
  by_cases hmo : okVal m.month = true
  case neg => rw [atoiOpt_err m.month hmo, exceptBind_err]
  rw [atoiOpt_ok m.month hmo, exceptBind_ok]
  by_cases hw : okVal m.week = true
  case neg => rw [atoiOpt_err m.week hw, exceptBind_err]
  rw [atoiOpt_ok m.week hw, exceptBind_ok]
  by_cases hd : okVal m.day = true
  case neg => rw [atoiOpt_err m.day hd, exceptBind_err]
  rw [atoiOpt_ok m.day hd, exceptBind_ok]
  by_cases hh : okVal m.hour = true
  case neg => rw [atoiOpt_err m.hour hh, exceptBind_err]
  rw [atoiOpt_ok m.hour hh, exceptBind_ok]
  by_cases hmi : okVal m.minute = true
  case neg => rw [atoiOpt_err m.minute hmi, exceptBind_err]
  rw [atoiOpt_ok m.minute hmi, exceptBind_ok]
  by_cases hsec : okVal m.second = true
  case neg => rw [atoiOpt_err m.second hsec, exceptBind_err]
  exact absurd ⟨hy, hmo, hw, hd, hh, hmi, hsec⟩ hover


/-! ## Claim theorems -/
/-- C1: for every input string that matches the duration grammar (a word
`P [nY] [nM] [nW] [nD] [T [nH] [nM] [nS]]` with nonempty digit runs whose
values fit a Go `int`), the parser populates exactly the unit fields
present in the matched input — each digit run, converted to an integer,
is assigned to its unit's field — and leaves every absent unit at zero. -/
theorem claim1_parser_populates_matched_fields (g : GrammarParts)
    (hy : goodRun g.year = true) (hmo : goodRun g.month = true)
    (hw : goodRun g.week = true) (hd : goodRun g.day = true)
    (hh : goodRun g.hour = true) (hmi : goodRun g.minute = true)
    (hsec : goodRun g.second = true) (htg : timeGuard g)
    (vy : okVal g.year = true) (vmo : okVal g.month = true)
    (vw : okVal g.week = true) (vd : okVal g.day = true)
    (vh : okVal g.hour = true) (vmi : okVal g.minute = true)
    (vsec : okVal g.second = true) :
    fromChars (render g) = .ok ⟨valOf g.year, valOf g.month, valOf g.week, valOf g.day,
      valOf g.hour, valOf g.minute, valOf g.second⟩ :=
  fromChars_render g hy hmo hw hd hh hmi hsec htg vy vmo vw vd vh vmi vsec

/-- C1 witness: the grammar word `P1Y2M3W4DT3H4M5S` parses to
Years=1, Months=2, Weeks=3, Days=4, Hours=3, Minutes=4, Seconds=5,
and `P1W` parses to Weeks=1 with all other fields zero. -/
theorem claim1_witness :
    render ⟨some ['1'], some ['2'], some ['3'], some ['4'], true,
        some ['3'], some ['4'], some ['5']⟩ = "P1Y2M3W4DT3H4M5S".data
    ∧ fromChars (render ⟨some ['1'], some ['2'], some ['3'], some ['4'], true,
        some ['3'], some ['4'], some ['5']⟩) = .ok ⟨1, 2, 3, 4, 3, 4, 5⟩
    ∧ FromString "P1W" = .ok ⟨0, 0, 1, 0, 0, 0, 0⟩ := by
  refine ⟨by decide, ?_, rfl⟩
  exact claim1_parser_populates_matched_fields
    ⟨some ['1'], some ['2'], some ['3'], some ['4'], true, some ['3'], some ['4'], some ['5']⟩
    (by decide) (by decide) (by decide) (by decide) (by decide) (by decide) (by decide)
    (fun hf => absurd hf (by decide))
    (by decide) (by decide) (by decide) (by decide) (by decide) (by decide) (by decide)

/-- C2: the template execution emits `P`, then each nonzero field of
Years/Months/Weeks/Days as value-plus-letter in that fixed order, then
`T` exactly when some time field is nonzero, then each nonzero time field
in Hours/Minutes/Seconds order; the all-zero Duration formats to `P`, and
Months=2, Hours=1 formats to `P2MT1H`. -/
theorem claim2_formatter_fixed_order :
    (∀ d : Duration, durStringE d = .ok (specFormatChars d))
    ∧ durationString ⟨0, 0, 0, 0, 0, 0, 0⟩ = ['P']
    ∧ durationString ⟨0, 2, 0, 0, 1, 0, 0⟩ = ['P', '2', 'M', 'T', '1', 'H'] :=
  ⟨durStringE_spec, by decide, by decide⟩

theorem lookupZone_fixed (off sec : Int) :
    lookupZone ⟨off, []⟩ sec = (off, zoneAlpha, zoneOmega) := rfl

theorem DateL_fixed (off y m dd tod : Int) :
    DateL ⟨off, []⟩ y m dd tod = Date y m dd tod - off := by
  simp only [DateL, lookupZone_fixed]
  by_cases h : off = 0
  · subst h
    simp
  · simp only [if_neg h, ite_self]

theorem AddDateL_fixed (off t y m dd : Int) :
    AddDateL ⟨off, []⟩ t y m dd = AddDate (t + off) y m dd - off := by
  simp only [AddDateL, lookupZone_fixed, DateL_fixed, AddDate]

theorem AddDateL_fixed_merge (off t a b : Int) :
    AddDateL ⟨off, []⟩ (AddDateL ⟨off, []⟩ t 0 0 a) 0 0 b
      = AddDateL ⟨off, []⟩ t 0 0 (a + b) := by
  rw [AddDateL_fixed, AddDateL_fixed, AddDateL_fixed, sub_add_cancel, AddDate_days_merge]

/-- C3 counterexample: with anchor March 1 2026, 02:30 EST
(07:30 UTC) in the America/New_York fragment and Weeks=1, Days=1, the
code's sequential week-then-day `AddDate` steps pass through the DST
spring-forward gap (March 8 2026, 02:30 does not exist) and yield
7 days 22 hours, while the spec's single combined calendar-day addition
of `7*weeks + days` yields 7 days 23 hours — so `ToDuration` does not
equal the claimed combined computation at this ordinary anchor. -/
theorem claim3_counterexample :
    ToDuration newYork2026 ⟨0, 0, 1, 1, 0, 0, 0⟩ (Date 2026 3 1 27000000000000)
      ≠ specExactSpan newYork2026 ⟨0, 0, 1, 1, 0, 0, 0⟩ (Date 2026 3 1 27000000000000)
    ∧ ToDuration newYork2026 ⟨0, 0, 1, 1, 0, 0, 0⟩ (Date 2026 3 1 27000000000000)
        = 684000000000000
    ∧ specExactSpan newYork2026 ⟨0, 0, 1, 1, 0, 0, 0⟩ (Date 2026 3 1 27000000000000)
        = 687600000000000 := by
  refine ⟨by decide, rfl, rfl⟩

/-- C3 amended: for every anchor in a location with a constant UTC
offset (no DST transitions, e.g. UTC itself), and nonnegative fields
small enough that none of Go's `int64`/`uint64` arithmetic overflows
(each field at most 250 keeps the whole span under `time.Duration`'s
±292-year range, and the anchor within Go's representable absolute
range), `ToDuration` equals the spec's calendar computation: combined
years+months addition, then one calendar-day addition of
`7*weeks + days`, then fixed-length hours, minutes and seconds.  Across
a DST transition the sequential and combined day additions can differ
(see the counterexample). -/
theorem claim3_fixed_offset_calendar (off : Int) (d : Duration) (t : Int)
    (_ho1 : -64800000000000 ≤ off) (_ho2 : off ≤ 64800000000000)
    (_ht1 : 0 ≤ t) (_ht2 : t ≤ 18446744064000000000000000000)
    (_h1 : 0 ≤ d.Years) (_h2 : d.Years ≤ 250)
    (_h3 : 0 ≤ d.Months) (_h4 : d.Months ≤ 250)
    (_h5 : 0 ≤ d.Weeks) (_h6 : d.Weeks ≤ 250)
    (_h7 : 0 ≤ d.Days) (_h8 : d.Days ≤ 250)
    (_h9 : 0 ≤ d.Hours) (_h10 : d.Hours ≤ 250)
    (_h11 : 0 ≤ d.Minutes) (_h12 : d.Minutes ≤ 250)
    (_h13 : 0 ≤ d.Seconds) (_h14 : d.Seconds ≤ 250) :
    ToDuration ⟨off, []⟩ d t = specExactSpan ⟨off, []⟩ d t := by
  simp only [ToDuration, specExactSpan, AddDateL_fixed_merge]
  ring

/-- C3 witness: a mixed Duration at a fixed-offset (UTC−5) anchor. -/
theorem claim3_fixed_offset_calendar_witness :
    ((-64800000000000 : Int) ≤ -18000000000000)
    ∧ ToDuration ⟨-18000000000000, []⟩ ⟨2, 3, 1, 1, 2, 51, 12⟩
        (Date 2026 3 1 27000000000000)
      = specExactSpan ⟨-18000000000000, []⟩ ⟨2, 3, 1, 1, 2, 51, 12⟩
        (Date 2026 3 1 27000000000000) := by
  refine ⟨by decide, ?_⟩
  exact claim3_fixed_offset_calendar (-18000000000000) ⟨2, 3, 1, 1, 2, 51, 12⟩
    (Date 2026 3 1 27000000000000)
    (by decide) (by decide) (by decide) (by decide) (by decide) (by decide) (by decide)
    (by decide) (by decide) (by decide) (by decide) (by decide) (by decide) (by decide)
    (by decide) (by decide) (by decide) (by decide)

/-- C4 counterexample: at Years = 10^18 (a valid nonnegative Go `int`),
the `int64` multiplication `year * time.Duration(d.Years)` wraps, so
`ToEstimatedDuration` returns the wrapped value 7222692621594918912 and
not the exact fixed-table sum — refuting the exact equality claimed for
every Duration with nonnegative fields. -/
theorem claim4_counterexample :
    ToEstimatedDuration ⟨1000000000000000000, 0, 0, 0, 0, 0, 0⟩
      ≠ 1000000000000000000 * (365 * (24 * nsHour))
    ∧ ToEstimatedDuration ⟨1000000000000000000, 0, 0, 0, 0, 0, 0⟩ = 7222692621594918912 :=
  ⟨by decide, rfl⟩

/-- C4 amended: for every Duration with nonnegative fields whose exact
fixed-table sum fits in `time.Duration` (at most MaxInt64 nanoseconds,
so no `int64` operation overflows), `ToEstimatedDuration` equals exactly
`years*365*24h + months*30*24h + weeks*7*24h + days*24h + hours*1h +
minutes*1min + seconds*1s`, independent of any anchor instant; beyond
that range the result is the two's-complement-wrapped value (see the
counterexample). -/
theorem wrap64_id (x : Int) (hlo : -9223372036854775808 ≤ x)
    (hhi : x ≤ 9223372036854775807) : wrap64 x = x := by
  simp only [wrap64]
  omega

theorem claim4_estimated_fixed_table (d : Duration)
    (h1 : 0 ≤ d.Years) (h2 : 0 ≤ d.Months) (h3 : 0 ≤ d.Weeks) (h4 : 0 ≤ d.Days)
    (h5 : 0 ≤ d.Hours) (h6 : 0 ≤ d.Minutes) (h7 : 0 ≤ d.Seconds)
    (hbound : d.Years * (365 * (24 * nsHour)) + d.Months * (30 * (24 * nsHour))
      + d.Weeks * (7 * (24 * nsHour)) + d.Days * (24 * nsHour)
      + d.Hours * nsHour + d.Minutes * nsMinute + d.Seconds * nsSecond ≤ (maxInt : Int)) :
    ToEstimatedDuration d
      = d.Years * (365 * (24 * nsHour)) + d.Months * (30 * (24 * nsHour))
        + d.Weeks * (7 * (24 * nsHour)) + d.Days * (24 * nsHour)
        + d.Hours * nsHour + d.Minutes * nsMinute + d.Seconds * nsSecond := by
  simp only [nsHour, nsMinute, nsSecond, maxInt] at hbound ⊢
  simp only [ToEstimatedDuration, nsHour, nsMinute, nsSecond]
  rw [wrap64_id (3600000000000 * 24) (by decide) (by decide),
    wrap64_id (3600000000000 * 24 * 30) (by decide) (by decide),
    wrap64_id (3600000000000 * 24 * 365) (by decide) (by decide),
    wrap64_id (3600000000000 * 24 * 7) (by decide) (by decide),
    wrap64_id d.Years (by omega) (by omega),
    wrap64_id d.Months (by omega) (by omega),
    wrap64_id d.Weeks (by omega) (by omega),
    wrap64_id d.Days (by omega) (by omega),
    wrap64_id d.Hours (by omega) (by omega),
    wrap64_id d.Minutes (by omega) (by omega),
    wrap64_id d.Seconds (by omega) (by omega),
    wrap64_id (3600000000000 * 24 * 365 * d.Years) (by omega) (by omega),
    wrap64_id (3600000000000 * 24 * 30 * d.Months) (by omega) (by omega),
    wrap64_id (3600000000000 * 24 * 7 * d.Weeks) (by omega) (by omega),
    wrap64_id (3600000000000 * 24 * d.Days) (by omega) (by omega),
    wrap64_id (3600000000000 * d.Hours) (by omega) (by omega),
    wrap64_id (60000000000 * d.Minutes) (by omega) (by omega),
    wrap64_id (1000000000 * d.Seconds) (by omega) (by omega),
    wrap64_id (0 + 3600000000000 * 24 * 365 * d.Years) (by omega) (by omega),
    wrap64_id (0 + 3600000000000 * 24 * 365 * d.Years
      + 3600000000000 * 24 * 30 * d.Months) (by omega) (by omega),
    wrap64_id (0 + 3600000000000 * 24 * 365 * d.Years
      + 3600000000000 * 24 * 30 * d.Months
      + 3600000000000 * 24 * 7 * d.Weeks) (by omega) (by omega),
    wrap64_id (0 + 3600000000000 * 24 * 365 * d.Years
      + 3600000000000 * 24 * 30 * d.Months
      + 3600000000000 * 24 * 7 * d.Weeks
      + 3600000000000 * 24 * d.Days) (by omega) (by omega),
    wrap64_id (0 + 3600000000000 * 24 * 365 * d.Years
      + 3600000000000 * 24 * 30 * d.Months
      + 3600000000000 * 24 * 7 * d.Weeks
      + 3600000000000 * 24 * d.Days
      + 3600000000000 * d.Hours) (by omega) (by omega),
    wrap64_id (0 + 3600000000000 * 24 * 365 * d.Years
      + 3600000000000 * 24 * 30 * d.Months
      + 3600000000000 * 24 * 7 * d.Weeks
      + 3600000000000 * 24 * d.Days
      + 3600000000000 * d.Hours
      + 60000000000 * d.Minutes) (by omega) (by omega),
    wrap64_id (0 + 3600000000000 * 24 * 365 * d.Years
      + 3600000000000 * 24 * 30 * d.Months
      + 3600000000000 * 24 * 7 * d.Weeks
      + 3600000000000 * 24 * d.Days
      + 3600000000000 * d.Hours
      + 60000000000 * d.Minutes
      + 1000000000 * d.Seconds) (by omega) (by omega)]
  ring

/-- C4 witness: each single-unit Duration yields respectively 365 days,
30 days, 7 days, 1 day, 1 hour, 1 minute, 1 second, and the Years=1 case
instantiates the amended theorem. -/
theorem claim4_estimated_fixed_table_witness :
    ToEstimatedDuration ⟨1, 0, 0, 0, 0, 0, 0⟩ = 365 * (24 * nsHour)
    ∧ ToEstimatedDuration ⟨0, 1, 0, 0, 0, 0, 0⟩ = 30 * (24 * nsHour)
    ∧ ToEstimatedDuration ⟨0, 0, 1, 0, 0, 0, 0⟩ = 7 * (24 * nsHour)
    ∧ ToEstimatedDuration ⟨0, 0, 0, 1, 0, 0, 0⟩ = 24 * nsHour
    ∧ ToEstimatedDuration ⟨0, 0, 0, 0, 1, 0, 0⟩ = nsHour
    ∧ ToEstimatedDuration ⟨0, 0, 0, 0, 0, 1, 0⟩ = nsMinute
    ∧ ToEstimatedDuration ⟨0, 0, 0, 0, 0, 0, 1⟩ = nsSecond
    ∧ ToEstimatedDuration ⟨1, 0, 0, 0, 0, 0, 0⟩
        = 1 * (365 * (24 * nsHour)) + 0 * (30 * (24 * nsHour)) + 0 * (7 * (24 * nsHour))
          + 0 * (24 * nsHour) + 0 * nsHour + 0 * nsMinute + 0 * nsSecond := by
  refine ⟨by decide, by decide, by decide, by decide, by decide, by decide, by decide, ?_⟩
  exact claim4_estimated_fixed_table ⟨1, 0, 0, 0, 0, 0, 0⟩
    (by decide) (by decide) (by decide) (by decide) (by decide) (by decide) (by decide)
    (by decide)

/-- C5 counterexample: the input `xP1W` parses successfully to Weeks=1,
yet its first character is not `P`, and every portion matched by the
pattern starts with `P` — so the matched portion is not a prefix
beginning at the first character: a leading character was ignored,
refuting the claim that the match is anchored at the start. -/
theorem claim5_counterexample :
    fromChars ['x', 'P', '1', 'W'] = .ok ⟨0, 0, 1, 0, 0, 0, 0⟩
    ∧ List.head? ['x', 'P', '1', 'W'] ≠ some 'P' :=
  ⟨rfl, by decide⟩

/-- C5 amended: the grammar match is leftmost rather than anchored at the
start: parsing ignores any characters before the first occurrence of `P`
(as well as unconsumed trailing characters), so prepending 'P'-free text
never changes the result. -/
theorem claim5_leftmost_match (pre s : List Char) (hp : 'P' ∉ pre) :
    fromChars (pre ++ s) = fromChars s :=
  fromChars_skip pre s hp

/-- C5 witness: prepending `ab` to `P3D` does not change the parse. -/
theorem claim5_leftmost_match_witness :
    'P' ∉ (['a', 'b'] : List Char)
    ∧ fromChars (['a', 'b'] ++ ['P', '3', 'D']) = fromChars ['P', '3', 'D'] :=
  ⟨by decide, claim5_leftmost_match ['a', 'b'] ['P', '3', 'D'] (by decide)⟩

/-- C6 counterexample: the input `xxP2D` lacks a leading unit marker `P`
(its first character is not `P`), yet parsing does not fail: it returns
Days=2 — refuting "input text that lacks the leading unit marker always
fails with the format error". -/
theorem claim6_counterexample :
    fromChars ['x', 'x', 'P', '2', 'D'] = .ok ⟨0, 0, 0, 2, 0, 0, 0⟩
    ∧ List.head? ['x', 'x', 'P', '2', 'D'] ≠ some 'P' :=
  ⟨rfl, by decide⟩

/-- C6 amended: parsing fails with `ErrBadFormat` exactly when the input
contains no occurrence of `P` at all (the unanchored pattern then finds
no match anywhere); in particular `asdf` yields the format error. -/
theorem claim6_badformat_iff_no_P :
    (∀ s : List Char, fromChars s = .error .badFormat ↔ 'P' ∉ s)
    ∧ FromString "asdf" = .error .badFormat :=
  ⟨fromChars_badFormat_iff, rfl⟩

/-- C7: weak round-trip: for a Duration with nonnegative fields that fit
a Go `int` and at most one nonzero field in the date group and at most
one in the time group, parsing the formatted string reproduces the
Duration exactly. -/
theorem claim7_weak_roundtrip (d : Duration)
    (h1 : 0 ≤ d.Years) (h2 : 0 ≤ d.Months) (h3 : 0 ≤ d.Weeks) (h4 : 0 ≤ d.Days)
    (h5 : 0 ≤ d.Hours) (h6 : 0 ≤ d.Minutes) (h7 : 0 ≤ d.Seconds)
    (b1 : d.Years ≤ (maxInt : Int)) (b2 : d.Months ≤ (maxInt : Int))
    (b3 : d.Weeks ≤ (maxInt : Int)) (b4 : d.Days ≤ (maxInt : Int))
    (b5 : d.Hours ≤ (maxInt : Int)) (b6 : d.Minutes ≤ (maxInt : Int))
    (b7 : d.Seconds ≤ (maxInt : Int))
    (hg1 : List.countP (fun v => v != 0) [d.Years, d.Months, d.Weeks, d.Days] ≤ 1)
    (hg2 : List.countP (fun v => v != 0) [d.Hours, d.Minutes, d.Seconds] ≤ 1) :
    fromChars (durationString d) = .ok d := by
  obtain ⟨Y, Mo, W, D, H, Mi, S⟩ := d
  rw [durationString_eq, specFormatChars_eq_render _ h1 h2 h3 h4 h5 h6 h7]
  have htg : timeGuard (partsOf ⟨Y, Mo, W, D, H, Mi, S⟩) := by
    intro hf
    have hz := (hasTimePart_false_iff ⟨Y, Mo, W, D, H, Mi, S⟩).mp hf
    refine ⟨?_, ?_, ?_⟩ <;> simp [partsOf]
    · exact hz.1
    · exact hz.2.1
    · exact hz.2.2
  have happ := fromChars_render (partsOf ⟨Y, Mo, W, D, H, Mi, S⟩)
    (goodRun_partsOf Y) (goodRun_partsOf Mo) (goodRun_partsOf W) (goodRun_partsOf D)
    (goodRun_partsOf H) (goodRun_partsOf Mi) (goodRun_partsOf S) htg
    (okVal_partsOf Y b1) (okVal_partsOf Mo b2) (okVal_partsOf W b3) (okVal_partsOf D b4)
    (okVal_partsOf H b5) (okVal_partsOf Mi b6) (okVal_partsOf S b7)
  rw [happ]
  simp only [partsOf, valOf_partsOf Y h1, valOf_partsOf Mo h2, valOf_partsOf W h3,
    valOf_partsOf D h4, valOf_partsOf H h5, valOf_partsOf Mi h6, valOf_partsOf S h7]

/-- C7 witness: the Duration with Months=2 and Hours=1 round-trips
through the formatter and the parser. -/
theorem claim7_weak_roundtrip_witness :
    (0 : Int) ≤ 2
    ∧ fromChars (durationString ⟨0, 2, 0, 0, 1, 0, 0⟩) = .ok ⟨0, 2, 0, 0, 1, 0, 0⟩ :=
  ⟨by decide, claim7_weak_roundtrip ⟨0, 2, 0, 0, 1, 0, 0⟩
    (by decide) (by decide) (by decide) (by decide) (by decide) (by decide) (by decide)
    (by decide) (by decide) (by decide) (by decide) (by decide) (by decide) (by decide)
    (by decide) (by decide)⟩

/-- C8: when the regex matches but some captured digit run does not fit
the Go `int` type, the parser returns the `strconv.Atoi` range error
(a value, not a panic, and not a Duration). -/
theorem claim8_overflow_errors (s : List Char) (m : RawMatch) (hm : findMatch s = some m)
    (hover : ¬ (okVal m.year = true ∧ okVal m.month = true ∧ okVal m.week = true
      ∧ okVal m.day = true ∧ okVal m.hour = true ∧ okVal m.minute = true
      ∧ okVal m.second = true)) :
    fromChars s = .error .rangeError :=
  fromChars_overflow s m hm hover

/-- C8 witness: `P9999999999999999999Y` (whose year value exceeds the
largest Go `int`) yields the range error. -/
theorem claim8_overflow_errors_witness :
    findMatch "P9999999999999999999Y".data
      = some ⟨some ['9','9','9','9','9','9','9','9','9','9','9','9','9','9','9','9','9','9','9'],
          none, none, none, none, none, none⟩
    ∧ fromChars "P9999999999999999999Y".data = .error .rangeError := by
  refine ⟨by decide, ?_⟩
  exact claim8_overflow_errors "P9999999999999999999Y".data
    ⟨some ['9','9','9','9','9','9','9','9','9','9','9','9','9','9','9','9','9','9','9'],
      none, none, none, none, none, none⟩
    (by decide) (by decide)

/-- C9: the formatter is total: template execution never returns an
error on any Duration, so the panic branch of `String` is unreachable;
`durationString` always returns the successfully executed output. -/
theorem claim9_formatter_total_no_panic (d : Duration) :
    (∃ s, durStringE d = .ok s ∧ durationString d = s)
    ∧ ∀ e : String, durStringE d ≠ .error e := by
  refine ⟨⟨specFormatChars d, durStringE_spec d, durationString_eq d⟩, ?_⟩
  intro e h
  rw [durStringE_spec d] at h
  cases h

/-- C9 witness: instantiation at the all-zero Duration. -/
theorem claim9_formatter_total_no_panic_witness :
    (∃ s, durStringE ⟨0, 0, 0, 0, 0, 0, 0⟩ = .ok s ∧ durationString ⟨0, 0, 0, 0, 0, 0, 0⟩ = s)
    ∧ ∀ e : String, durStringE ⟨0, 0, 0, 0, 0, 0, 0⟩ ≠ .error e :=
  claim9_formatter_total_no_panic ⟨0, 0, 0, 0, 0, 0, 0⟩

/-- C10: `FromString` returns `ErrBadFormat` exactly when the input
contains no `'P'`; any input containing a `'P'` — anywhere, even with
leading garbage — produces a Duration or at most the numeric range
error, never `ErrBadFormat`. -/
theorem claim10_badformat_iff (s : List Char) :
    (fromChars s = .error .badFormat ↔ 'P' ∉ s)
    ∧ ('P' ∈ s → (∃ d, fromChars s = .ok d) ∨ fromChars s = .error .rangeError) := by
  refine ⟨fromChars_badFormat_iff s, ?_⟩
  intro hp
  match hfm : findMatch s with
  | none => exact absurd hp ((findMatch_none_iff s).mp hfm)
  | some m => exact fromChars_shape s m hfm

/-- C10 witness: instantiation at `xxP`. -/
theorem claim10_badformat_iff_witness :
    ((fromChars ['x', 'x', 'P'] = .error .badFormat ↔ 'P' ∉ (['x', 'x', 'P'] : List Char))
      ∧ ('P' ∈ (['x', 'x', 'P'] : List Char) →
        (∃ d, fromChars ['x', 'x', 'P'] = .ok d)
          ∨ fromChars ['x', 'x', 'P'] = .error .rangeError)) :=
  claim10_badformat_iff ['x', 'x', 'P']
